import Mathlib

/-!
Shallow embedding of the IsolateJS sandboxed script-execution service
(Go sources: ijs_manager.go, ijs_www.go, ijs_config.go, ijs_restart.go).
Pure fragments of the Go code become Lean functions; the per-request and
per-tick state updates are threaded explicitly.  The embedded scripting
engine (sobek) is abstracted as an environment of outcome functions,
matching the specification's interface assumption (`evaluate(source)`,
`interrupt(reason)`, per-VM global binding).
-/

namespace IsolateJS

/-- Values exported by the scripting engine.  A Go `nil` interface value
(what JS `null`/`undefined` export to) is modelled as `null`. -/
inductive JSValue where
  | null
  | boolean (b : Bool)
  | num (n : Int)
  | str (s : String)
  deriving DecidableEq, Repr

/-- The global binding table of one VM (sobek exposes per-VM global
bindings keyed by name). -/
abbrev GlobalEnv := String → JSValue

/-- Embeds `vm.Set(name, v)`: rebind `name` at the VM's global scope. -/
def vmSet (e : GlobalEnv) (name : String) (v : JSValue) : GlobalEnv :=
  fun x => if x = name then v else e x

/-- Outcome of one `vm.RunString(js)` call: either a value (its `Export`)
or an engine-level error with a message. -/
inductive EvalOutcome where
  | value (v : JSValue)
  | jsError (msg : String)
  deriving DecidableEq, Repr

/-- The custom errors of ijs_manager.go plus the wrapped engine failure
produced by `fmt.Errorf("script execution failed: %w", err)`. -/
inductive SMError where
  | scriptTimeout
  | scriptTooLarge
  | noWorkerAvailable
  | execFailed (detail : String)
  deriving DecidableEq, Repr

/-- The `Error()` string of each error value. -/
def errMessage : SMError → String
  | SMError.scriptTimeout => "script execution timed out"
  | SMError.scriptTooLarge => "script size exceeds maximum limit"
  | SMError.noWorkerAvailable => "no worker available to process script"
  | SMError.execFailed m => "script execution failed: " ++ m

/-- The restricted-globals list of ijs_manager.go, verbatim. -/
def restrictedGlobals : List String :=
  ["eval", "process", "child_process", "require", "global", "globalThis",
   "window", "self", "module", "exports", "__dirname", "__filename",
   "XMLHttpRequest", "fetch", "WebSocket", "Object.defineProperty",
   "Object.create", "Proxy", "exec", "execSync", "spawn", "fs",
   "FileSystem", "writeFile", "readFile", "Runtime.getRuntime",
   "setInterval", "setTimeout", "setImmediate", "crypto", "randomBytes",
   "document", "alert", "confirm", "prompt"]

/-- The capability-strip loop at the top of `executeScript`:
`for _, global := range restrictedGlobals { vm.Set(global, nil) }`. -/
def applyRestrictions (e : GlobalEnv) : GlobalEnv :=
  restrictedGlobals.foldl (fun acc g => vmSet acc g JSValue.null) e

/-- `RunningScriptInfo` from ijs_manager.go.  The `*sobek.Runtime` handle
is modelled by a numeric id; the `context.CancelFunc` (nil-able in Go) by
an optional trigger. -/
structure RunningScriptInfo where
  cancelFunc : Option Unit
  vm : Nat
  script : List Nat
  deriving DecidableEq, Repr

/-- The `runningScripts` map, `id ↦ RunningScriptInfo`. -/
abbrev Registry := List (String × RunningScriptInfo)

/-- Observable side effects of `cancelAllScripts`. -/
inductive CancelEvent where
  | interrupted (vm : Nat) (reason : String)
  | cancelFired (id : String)
  deriving DecidableEq, Repr

/-- One iteration of the `cancelAllScripts` loop body for entry `(id, info)`:
`entry.vm.Interrupt("Script cancelled")`, then
`if entry.cancelFunc != nil { entry.cancelFunc() }`. -/
def cancelEntry (id : String) (info : RunningScriptInfo) : List CancelEvent :=
  CancelEvent.interrupted info.vm "Script cancelled" ::
    (match info.cancelFunc with
     | some _ => [CancelEvent.cancelFired id]
     | none => [])

/-- `cancelAllScripts`: iterate over every registry entry, emit its events
and delete it (`delete(sm.runningScripts, id)`); returns the emitted
events and the resulting registry. -/
def cancelAllScripts : Registry → List CancelEvent × Registry
  | [] => ([], [])
  | p :: rest =>
      let r := cancelAllScripts rest
      (cancelEntry p.1 p.2 ++ r.1, r.2)

/-- The evaluator goroutine's deferred `delete(sm.runningScripts, id)`. -/
def unregister (reg : Registry) (id : String) : Registry :=
  reg.filter (fun p => decide (p.1 ≠ id))

/-- The recognized configuration fields (ijs_config.go); durations in
milliseconds. -/
structure Config where
  maxMemoryMB : Nat
  maxScriptSize : Nat
  serverPort : Nat
  scriptTimeoutMillis : Nat
  workerPoolSize : Nat
  logOnConsole : Bool
  shutdownTimeLimitMillis : Nat
  shutdownPauseMillis : Nat
  deriving DecidableEq, Repr

/-- The mutable fields of `ScriptManager`.  The buffered `jobQueue`
channel is modelled as a list of queued scripts plus its capacity. -/
structure SMState where
  runningScripts : Registry
  maxScriptSize : Nat
  jobQueue : List (List Nat)
  jobQueueCap : Nat
  accepting : Bool
  scriptCounter : Nat
  deriving DecidableEq, Repr

/-- `NewScriptManager(maxScriptSize, workerCount)`: empty registry, a job
queue of capacity `workerCount` (`make(chan ScriptJob, workerCount)`),
`acceptingScript = 1`. -/
def NewScriptManager (maxScriptSize : Nat) (workerCount : Nat) : SMState :=
  { runningScripts := []
    maxScriptSize := maxScriptSize
    jobQueue := []
    jobQueueCap := workerCount
    accepting := true
    scriptCounter := 0 }

/-- Abstraction of the scripting engine and the scheduler for one
evaluation.  `eval` is the outcome of `vm.RunString` when it completes
before the deadline; `postInterrupt` is the outcome harvested from the
result channel after `vm.Interrupt` has been invoked (for sobek this is
an interruption error, but a just-finished value is also possible);
`finishedBeforeDeadline` records which arm of the select fires first. -/
structure ExecEnv where
  initialGlobals : GlobalEnv
  finishedBeforeDeadline : Bool
  eval : GlobalEnv → List Nat → EvalOutcome
  postInterrupt : GlobalEnv → List Nat → EvalOutcome

/-- `ScriptResult` from ijs_manager.go: a `nil` `Result` interface is
modelled as `JSValue.null`. -/
structure ScriptResult where
  result : JSValue
  error : Option SMError
  deriving DecidableEq, Repr

/-- What the evaluator goroutine sends on its one-slot result channel:
a success carries `value.Export()`; an engine failure is wrapped as
`script execution failed: <detail>`. -/
def goroutineResult : EvalOutcome → ScriptResult
  | EvalOutcome.value v => { result := v, error := none }
  | EvalOutcome.jsError m => { result := JSValue.null, error := some (SMError.execFailed m) }

/-- The global table of the VM built by `executeScript`: a fresh
`sobek.New()` environment with the capability strip applied. -/
def vmGlobals (env : ExecEnv) : GlobalEnv :=
  applyRestrictions env.initialGlobals

/-- `executeScript`: build the VM, strip capabilities, run the evaluator
goroutine, and select between the result channel and `ctx.Done()`.  On
deadline expiry it calls `vm.Interrupt("canceled by context")` and then
returns `<-resultChan`.  The returned flag records whether the interrupt
was invoked. -/
def executeScript (env : ExecEnv) (js : List Nat) : Bool × ScriptResult :=
  let g := vmGlobals env
  if env.finishedBeforeDeadline then
    (false, goroutineResult (env.eval g js))
  else
    (true, goroutineResult (env.postInterrupt g js))

/-- `ExecuteScriptWithTimeout`: reject scripts larger than
`maxScriptSize`; otherwise attempt a non-blocking send on `jobQueue`
(`select` with a `default` arm returning `ErrNoWorkerAvailable`); on a
successful send a worker dequeues the job, runs `executeScript`, and the
caller receives the reply.  The returned state is the net state after the
round trip: the enqueued job has been consumed and the script counter
bumped; on either rejection the state is untouched. -/
def ExecuteScriptWithTimeout (sm : SMState) (env : ExecEnv) (js : List Nat) :
    Except SMError JSValue × SMState :=
  if sm.maxScriptSize < js.length then
    (Except.error SMError.scriptTooLarge, sm)
  else if sm.jobQueue.length < sm.jobQueueCap then
    let r := (executeScript env js).2
    match r.error with
    | some e => (Except.error e, { sm with scriptCounter := sm.scriptCounter + 1 })
    | none => (Except.ok r.result, { sm with scriptCounter := sm.scriptCounter + 1 })
  else
    (Except.error SMError.noWorkerAvailable, sm)

/-- `uint64(config.MaxMemoryMB) << 20`. -/
def limitBytes (maxMemoryMB : Nat) : Nat := maxMemoryMB * 2 ^ 20

/-- The constant `10 * time.Second` settling sleep in `resetMemoryUsage`. -/
def settleDelaySeconds : Nat := 10

/-- `enforceMemoryLimit(overLimitStart)` evaluated at Unix time `now`:
record the first over-limit instant, or escalate to restart after more
than 60 seconds of sustained overage.  The Bool records whether
`restart(...)` was invoked. -/
def enforceMemoryLimit (overLimitStart : Int) (now : Int) : Int × Bool :=
  if overLimitStart = 0 then (now, false)
  else if 60 < now - overLimitStart then (overLimitStart, true)
  else (overLimitStart, false)

/-- One heap sample observed by a watchdog tick. -/
structure MonitorInput where
  allocBytes : Nat
  now : Int
  deriving DecidableEq, Repr

/-- Result of one iteration of the `memoryMonitor` loop. -/
structure TickResult where
  sm : SMState
  overLimitStart : Int
  cancelEvents : List CancelEvent
  cancelAllInvoked : Bool
  restarted : Bool
  reopenedAfterSeconds : Option Nat
  deriving DecidableEq, Repr

/-- One iteration of the `memoryMonitor` loop body: sample the heap; on
overage close the gate and cancel all scripts (first over-limit tick with
the gate open), then run `enforceMemoryLimit`; on an under-limit sample
with a recorded overage run `resetMemoryUsage` (sleep `settleDelaySeconds`
then reopen the gate) and clear `overLimitStart`. -/
def memoryMonitorTick (cfg : Config) (sm : SMState) (overLimitStart : Int)
    (i : MonitorInput) : TickResult :=
  if limitBytes cfg.maxMemoryMB < i.allocBytes then
    if sm.accepting then
      let c := cancelAllScripts sm.runningScripts
      let e := enforceMemoryLimit overLimitStart i.now
      { sm := { sm with accepting := false, runningScripts := c.2 }
        overLimitStart := e.1
        cancelEvents := c.1
        cancelAllInvoked := true
        restarted := e.2
        reopenedAfterSeconds := none }
    else
      let e := enforceMemoryLimit overLimitStart i.now
      { sm := sm
        overLimitStart := e.1
        cancelEvents := []
        cancelAllInvoked := false
        restarted := e.2
        reopenedAfterSeconds := none }
  else if overLimitStart ≠ 0 then
    { sm := { sm with accepting := true }
      overLimitStart := 0
      cancelEvents := []
      cancelAllInvoked := false
      restarted := false
      reopenedAfterSeconds := some settleDelaySeconds }
  else
    { sm := sm
      overLimitStart := overLimitStart
      cancelEvents := []
      cancelAllInvoked := false
      restarted := false
      reopenedAfterSeconds := none }

/-- One HTTP request as seen by the /data handler (ijs_www.go). -/
structure Request where
  method : String
  body : List Nat
  readFails : Bool

/-- The body of one HTTP response: plain text written by `http.Error`,
or the `encoding/json` encoding of a `Response` value. -/
inductive RespBody where
  | text (s : String)
  | jsonBody (fields : List (String × JSValue))
  deriving DecidableEq, Repr

/-- What the handler produced for a request: the status, the single
response body, the argument handed to `ExecuteScriptWithTimeout` (if the
request reached submission), and the execution result (if any). -/
structure HandlerOutput where
  status : Nat
  body : RespBody
  submitted : Option (List Nat)
  execResult : Option (Except SMError JSValue)

/-- `handleExecutionError`: `ErrScriptTooLarge ↦ 400`,
`ErrNoWorkerAvailable ↦ 503`, anything else `↦ 500`. -/
def statusForError : SMError → Nat
  | SMError.scriptTooLarge => 400
  | SMError.noWorkerAvailable => 503
  | _ => 500

/-- `encoding/json` encoding of the `Response` struct.  Both fields carry
`omitempty`: `Result` (an interface) is omitted when nil, `Error` (a
string) when empty. -/
def encodeResponse (result : JSValue) (error : String) : List (String × JSValue) :=
  (if result = JSValue.null then [] else [("result", result)]) ++
    (if error = "" then [] else [("error", JSValue.str error)])

/-- The /data handler of ijs_www.go: require POST; read the body through
`io.LimitReader(r.Body, maxScriptSize)` (silent truncation at the cap);
reject while not accepting (`http.Error` with `StatusMethodNotAllowed`);
otherwise submit to `ExecuteScriptWithTimeout` and emit one JSON body. -/
def handler (sm : SMState) (env : ExecEnv) (r : Request) : HandlerOutput × SMState :=
  if r.method ≠ "POST" then
    ({ status := 405, body := RespBody.text "Only POST requests are allowed"
       submitted := none, execResult := none }, sm)
  else
    let body := r.body.take sm.maxScriptSize
    if r.readFails then
      ({ status := 400, body := RespBody.text "Failed to read request body"
         submitted := none, execResult := none }, sm)
    else if sm.accepting = false then
      ({ status := 405, body := RespBody.text "Currently not accepting script, please wait..."
         submitted := none, execResult := none }, sm)
    else
      match ExecuteScriptWithTimeout sm env body with
      | (Except.ok v, s2) =>
          ({ status := 200, body := RespBody.jsonBody (encodeResponse v "")
             submitted := some body, execResult := some (Except.ok v) }, s2)
      | (Except.error e, s2) =>
          ({ status := statusForError e
             body := RespBody.jsonBody (encodeResponse JSValue.null (errMessage e))
             submitted := some body, execResult := some (Except.error e) }, s2)

deriving instance DecidableEq for Except

/-- A deterministic engine abstraction used for concrete evaluations:
the script evaluates to the number 5, and an interrupt surfaces as the
engine error carrying the interrupt reason. -/
def envW : ExecEnv :=
  { initialGlobals := fun _ => JSValue.null
    finishedBeforeDeadline := true
    eval := fun _ _ => EvalOutcome.value (JSValue.num 5)
    postInterrupt := fun _ _ => EvalOutcome.jsError "canceled by context" }

/-- An engine abstraction for a run whose deadline expires first. -/
def envDeadlineW : ExecEnv :=
  { initialGlobals := fun _ => JSValue.null
    finishedBeforeDeadline := false
    eval := fun _ _ => EvalOutcome.value (JSValue.num 1)
    postInterrupt := fun _ _ => EvalOutcome.jsError "canceled by context" }

/-- A manager from `NewScriptManager` with `max_script_size = 4` and
`worker_pool_size = 1`. -/
def smW : SMState := NewScriptManager 4 1

/-- The manager with the admission gate closed. -/
def smClosedW : SMState := { NewScriptManager 4 1 with accepting := false }

/-- A manager whose job queue is full (one queued job, capacity one). -/
def smFullW : SMState :=
  { NewScriptManager 2 1 with jobQueue := [[59]] }

/-- A POST whose body `2+3;X` is one byte longer than `max_script_size = 4`. -/
def reqOversizeW : Request :=
  { method := "POST", body := [50, 43, 51, 59, 88], readFails := false }

/-- A small well-formed POST request (body `2+3;`). -/
def reqW : Request :=
  { method := "POST", body := [50, 43, 51, 59], readFails := false }

/-- A registry with one tracked script. -/
def regW : Registry :=
  [("script-1", { cancelFunc := some (), vm := 1, script := [59] })]

/-- A configuration with `max_memory_mb = 1`. -/
def cfgW : Config :=
  { maxMemoryMB := 1, maxScriptSize := 4, serverPort := 8080
    scriptTimeoutMillis := 1000, workerPoolSize := 1, logOnConsole := false
    shutdownTimeLimitMillis := 5000, shutdownPauseMillis := 1000 }

/-- A manager with the gate open and one tracked script. -/
def smOpenRegW : SMState := { NewScriptManager 4 1 with runningScripts := regW }

/-- An over-limit heap sample (about 2 MB against a 1 MB limit). -/
def iOverW : MonitorInput := { allocBytes := 2000000, now := 100 }

/-- An under-limit heap sample. -/
def iUnderW : MonitorInput := { allocBytes := 100, now := 200 }

/-- Folding the capability-strip insert over names not containing `g`
leaves the binding of `g` unchanged. -/
theorem foldl_vmSet_not_mem (l : List String) (e : GlobalEnv) (g : String) (hg : g ∉ l) :
    (l.foldl (fun acc n => vmSet acc n JSValue.null) e) g = e g := by
  induction l generalizing e with
  | nil => rfl
  | cons a t ih =>
      simp only [List.foldl_cons]
      rw [ih (vmSet e a JSValue.null) (fun h => hg (List.mem_cons_of_mem _ h))]
      have hga : g ≠ a := fun h => hg (h ▸ List.mem_cons_self a t)
      simp [vmSet, hga]

/-- Folding the capability-strip insert over a list containing `g` pins
the binding of `g` to `null`. -/
theorem foldl_vmSet_mem (l : List String) (e : GlobalEnv) (g : String) (hg : g ∈ l) :
    (l.foldl (fun acc n => vmSet acc n JSValue.null) e) g = JSValue.null := by
  induction l generalizing e with
  | nil => cases hg
  | cons a t ih =>
      simp only [List.foldl_cons]
      by_cases ht : g ∈ t
      · exact ih (vmSet e a JSValue.null) ht
      · have hga : g = a := by
          rcases List.mem_cons.mp hg with h | h
          · exact h
          · exact absurd h ht
        rw [foldl_vmSet_not_mem t _ g ht]
        simp [vmSet, hga]

/-- `cancelAllScripts` always leaves the registry empty. -/
theorem cancelAllScripts_snd (reg : Registry) : (cancelAllScripts reg).2 = [] := by
  induction reg with
  | nil => rfl
  | cons p rest ih => simpa [cancelAllScripts] using ih

/-- Every registered VM receives an interrupt from `cancelAllScripts`. -/
theorem cancelAllScripts_mem_interrupted (reg : Registry) (p : String × RunningScriptInfo)
    (hp : p ∈ reg) :
    CancelEvent.interrupted p.2.vm "Script cancelled" ∈ (cancelAllScripts reg).1 := by
  induction reg with
  | nil => cases hp
  | cons q rest ih =>
      simp only [cancelAllScripts, List.mem_append]
      rcases List.mem_cons.mp hp with h | h
      · subst h
        left
        simp [cancelEntry]
      · exact Or.inr (ih h)

/-- Every registered entry with a present cancel trigger has it fired by
`cancelAllScripts`. -/
theorem cancelAllScripts_mem_cancelFired (reg : Registry) (p : String × RunningScriptInfo)
    (hp : p ∈ reg) (hc : p.2.cancelFunc.isSome = true) :
    CancelEvent.cancelFired p.1 ∈ (cancelAllScripts reg).1 := by
  induction reg with
  | nil => cases hp
  | cons q rest ih =>
      simp only [cancelAllScripts, List.mem_append]
      rcases List.mem_cons.mp hp with h | h
      · subst h
        left
        rcases hcf : p.2.cancelFunc with _ | u
        · rw [hcf] at hc
          cases hc
        · simp [cancelEntry, hcf]
      · exact Or.inr (ih h)

/-- The evaluator goroutine only ever reports success or a wrapped engine
failure on the result channel. -/
theorem goroutineResult_error_shape (o : EvalOutcome) :
    (goroutineResult o).error = none ∨
      ∃ m, (goroutineResult o).error = some (SMError.execFailed m) := by
  cases o
  · exact Or.inl rfl
  · exact Or.inr ⟨_, rfl⟩

/-- `executeScript` only ever reports success or a wrapped engine
failure. -/
theorem executeScript_error_shape (env : ExecEnv) (js : List Nat) :
    (executeScript env js).2.error = none ∨
      ∃ m, (executeScript env js).2.error = some (SMError.execFailed m) := by
  unfold executeScript
  cases hf : env.finishedBeforeDeadline
  · simpa [hf] using goroutineResult_error_shape (env.postInterrupt (vmGlobals env) js)
  · simpa [hf] using goroutineResult_error_shape (env.eval (vmGlobals env) js)

/-- A script within the size bound never draws `ErrScriptTooLarge` from
`ExecuteScriptWithTimeout`. -/
theorem ExecuteScriptWithTimeout_ne_tooLarge (sm : SMState) (env : ExecEnv) (js : List Nat)
    (hlen : js.length ≤ sm.maxScriptSize) :
    (ExecuteScriptWithTimeout sm env js).1 ≠ Except.error SMError.scriptTooLarge := by
  unfold ExecuteScriptWithTimeout
  have h1 : ¬ sm.maxScriptSize < js.length := not_lt.mpr hlen
  simp only [h1, if_false]
  by_cases h2 : sm.jobQueue.length < sm.jobQueueCap
  · simp only [h2, if_true]
    rcases executeScript_error_shape env js with h | ⟨m, h⟩
    · simp [h]
    · simp [h]
  · simp [h2]

/-- Case analysis on the /data handler: a request is either rejected
before submission with a plain-text body, or it is submitted and answered
with one JSON body built from the execution result. -/
theorem handler_cases (sm : SMState) (env : ExecEnv) (r : Request) :
    ((handler sm env r).1.submitted = none ∧ (handler sm env r).1.execResult = none ∧
      ∃ s, (handler sm env r).1.body = RespBody.text s) ∨
    (∃ v s2, ExecuteScriptWithTimeout sm env (r.body.take sm.maxScriptSize) = (Except.ok v, s2) ∧
      handler sm env r =
        ({ status := 200, body := RespBody.jsonBody (encodeResponse v "")
           submitted := some (r.body.take sm.maxScriptSize)
           execResult := some (Except.ok v) }, s2)) ∨
    (∃ e s2, ExecuteScriptWithTimeout sm env (r.body.take sm.maxScriptSize) = (Except.error e, s2) ∧
      handler sm env r =
        ({ status := statusForError e
           body := RespBody.jsonBody (encodeResponse JSValue.null (errMessage e))
           submitted := some (r.body.take sm.maxScriptSize)
           execResult := some (Except.error e) }, s2)) := by
  unfold handler
  by_cases hm : r.method = "POST"
  · by_cases hrf : r.readFails
    · exact Or.inl (by simp [hm, hrf])
    · by_cases hacc : sm.accepting = false
      · exact Or.inl (by simp [hm, hrf, hacc])
      · rcases hE : ExecuteScriptWithTimeout sm env (r.body.take sm.maxScriptSize) with ⟨res, s2⟩
        cases res with
        | ok v =>
            refine Or.inr (Or.inl ⟨v, s2, rfl, ?_⟩)
            simp only [hm, hrf, hacc]
            rw [hE]
            simp
        | error e =>
            refine Or.inr (Or.inr ⟨e, s2, rfl, ?_⟩)
            simp only [hm, hrf, hacc]
            rw [hE]
            simp
  · exact Or.inl (by simp [hm])

/-- Claim C1 (code-bug evidence): a POST body one byte over
`max_script_size` is not rejected with 400 `script_too_large`; the
handler reads the body through `io.LimitReader`, silently truncates it to
the first `max_script_size` bytes, hands the prefix to the manager and
answers from its evaluation (here 200), so the documented size-cap
rejection is unreachable from the HTTP path. -/
theorem handler_oversize_body_truncated_bug :
    smW.maxScriptSize < reqOversizeW.body.length ∧
    (handler smW envW reqOversizeW).1.status = 200 ∧
    (handler smW envW reqOversizeW).1.status ≠ 400 ∧
    (handler smW envW reqOversizeW).1.submitted = some [50, 43, 51, 59] ∧
    (handler smW envW reqOversizeW).1.execResult ≠ some (Except.error SMError.scriptTooLarge) := by
  exact ⟨by decide, rfl, by decide, rfl, by decide⟩

/-- Claim C2 counterexample: when the deadline expires first,
`executeScript` interrupts the VM and then returns whatever the evaluator
goroutine sends — the engine's post-interrupt failure wrapped as
`script execution failed: ...` — never `ErrScriptTimeout`
("script execution timed out"). -/
theorem executeScript_timeout_cex :
    (executeScript envDeadlineW [59]).1 = true ∧
    (executeScript envDeadlineW [59]).2.error = some (SMError.execFailed "canceled by context") ∧
    (executeScript envDeadlineW [59]).2.error ≠ some SMError.scriptTimeout ∧
    errMessage (SMError.execFailed "canceled by context") ≠ errMessage SMError.scriptTimeout := by
  exact ⟨rfl, rfl, by decide, by decide⟩

/-- Claim C2 (amended): for every evaluation whose deadline expires before
the evaluator produces a result, `executeScript` interrupts the VM and
then returns the evaluator's post-interrupt reply — the engine's failure
wrapped by the goroutine — and the timeout error kind is never produced;
the engine's failure, not the cancellation reason, reaches the caller. -/
theorem executeScript_deadline_post_interrupt (env : ExecEnv) (js : List Nat)
    (h : env.finishedBeforeDeadline = false) :
    (executeScript env js).1 = true ∧
    (executeScript env js).2 = goroutineResult (env.postInterrupt (vmGlobals env) js) ∧
    (executeScript env js).2.error ≠ some SMError.scriptTimeout := by
  refine ⟨?_, ?_, ?_⟩
  · simp [executeScript, h]
  · simp [executeScript, h]
  · rcases executeScript_error_shape env js with he | ⟨m, he⟩
    · simp [he]
    · simp [he]

/-- Claim C2 amended-theorem witness at a concrete deadline-expired run. -/
theorem executeScript_deadline_post_interrupt_w :
    (executeScript envDeadlineW [49]).1 = true ∧
    (executeScript envDeadlineW [49]).2 =
      goroutineResult (envDeadlineW.postInterrupt (vmGlobals envDeadlineW) [49]) ∧
    (executeScript envDeadlineW [49]).2.error ≠ some SMError.scriptTimeout :=
  executeScript_deadline_post_interrupt envDeadlineW [49] rfl

/-- Claim C3 counterexample: with the admission gate closed, a POST /data
request is answered with status 405 (`http.StatusMethodNotAllowed`), not
503, alongside the plain-text not-accepting message. -/
theorem gate_closed_status_cex :
    (handler smClosedW envW reqW).1.status = 405 ∧
    (handler smClosedW envW reqW).1.status ≠ 503 ∧
    (handler smClosedW envW reqW).1.body =
      RespBody.text "Currently not accepting script, please wait..." := by
  exact ⟨rfl, by decide, rfl⟩

/-- Claim C3 (amended): whenever the admission gate is closed, every POST
/data request whose body read succeeds is answered with HTTP status 405
and the message "Currently not accepting script, please wait...", and the
job queue is not consulted — nothing is submitted and the manager state is
untouched. -/
theorem gate_closed_rejects_405 (sm : SMState) (env : ExecEnv) (r : Request)
    (hm : r.method = "POST") (hr : r.readFails = false) (ha : sm.accepting = false) :
    (handler sm env r).1.status = 405 ∧
    (handler sm env r).1.body = RespBody.text "Currently not accepting script, please wait..." ∧
    (handler sm env r).1.submitted = none ∧
    (handler sm env r).2 = sm := by
  unfold handler
  simp [hm, hr, ha]

/-- Claim C3 amended-theorem witness at a concrete closed-gate request. -/
theorem gate_closed_rejects_405_w :
    (handler smClosedW envW reqW).1.status = 405 ∧
    (handler smClosedW envW reqW).1.body =
      RespBody.text "Currently not accepting script, please wait..." ∧
    (handler smClosedW envW reqW).1.submitted = none ∧
    (handler smClosedW envW reqW).2 = smClosedW :=
  gate_closed_rejects_405 smClosedW envW reqW rfl rfl rfl

/-- Claim C4: for every identifier in the restricted-globals list, the VM
built for an evaluation has that identifier rebound at global scope to the
null value before the script runs, shadowing any engine-provided
binding. -/
theorem restricted_globals_rebound_null (env : ExecEnv) (g : String)
    (hg : g ∈ restrictedGlobals) : vmGlobals env g = JSValue.null := by
  unfold vmGlobals applyRestrictions
  exact foldl_vmSet_mem restrictedGlobals env.initialGlobals g hg

/-- Claim C4 witness: `fetch` is restricted, and the VM global table maps
it to null even though the engine provided a non-null binding. -/
theorem restricted_globals_rebound_null_w :
    "fetch" ∈ restrictedGlobals ∧ vmGlobals envW "fetch" = JSValue.null :=
  ⟨by decide, restricted_globals_rebound_null envW "fetch" (by decide)⟩

/-- Claim C5: on the HTTP path, the string handed to
`ExecuteScriptWithTimeout` is always the request body truncated to its
first `max_script_size` bytes (`io.LimitReader`), hence its length bound
holds and the `ErrScriptTooLarge` branch is unreachable from the
handler. -/
theorem handler_truncates_tooLarge_unreachable (sm : SMState) (env : ExecEnv)
    (r : Request) (js : List Nat)
    (h : (handler sm env r).1.submitted = some js) :
    js = r.body.take sm.maxScriptSize ∧
    js.length ≤ sm.maxScriptSize ∧
    (handler sm env r).1.execResult ≠ some (Except.error SMError.scriptTooLarge) := by
  have hlen : (r.body.take sm.maxScriptSize).length ≤ sm.maxScriptSize := by
    simp [List.length_take]
  rcases handler_cases sm env r with ⟨hs, he, hb⟩ | ⟨v, s2, hE, hh⟩ | ⟨e, s2, hE, hh⟩
  · rw [hs] at h
    cases h
  · rw [hh] at h
    have hjs : js = r.body.take sm.maxScriptSize := by
      have := h
      simp only at this
      injection this with h1
      exact h1.symm
    refine ⟨hjs, hjs ▸ hlen, ?_⟩
    rw [hh]
    simp
  · rw [hh] at h
    have hjs : js = r.body.take sm.maxScriptSize := by
      have := h
      simp only at this
      injection this with h1
      exact h1.symm
    have hne : e ≠ SMError.scriptTooLarge := by
      have hne1 := ExecuteScriptWithTimeout_ne_tooLarge sm env (r.body.take sm.maxScriptSize) hlen
      rw [hE] at hne1
      intro hcontra
      exact hne1 (by rw [hcontra])
    refine ⟨hjs, hjs ▸ hlen, ?_⟩
    rw [hh]
    simp only [ne_eq, Option.some.injEq]
    intro hcontra
    injection hcontra with h2
    exact hne h2

/-- Claim C5 witness: an oversized body is truncated to the cap and the
too-large branch is not taken. -/
theorem handler_truncates_tooLarge_unreachable_w :
    ([50, 43, 51, 59] : List Nat) = reqOversizeW.body.take smW.maxScriptSize ∧
    ([50, 43, 51, 59] : List Nat).length ≤ smW.maxScriptSize ∧
    (handler smW envW reqOversizeW).1.execResult ≠ some (Except.error SMError.scriptTooLarge) :=
  handler_truncates_tooLarge_unreachable smW envW reqOversizeW [50, 43, 51, 59] rfl

/-- Claim C6 counterexample: with `omitempty` on both `Response` fields,
the success encoding `{"result":5}` carries no "error" member, the
failure encoding carries no "result" member, and the closed-gate
rejection is a plain-text body — all contradicting the claimed
always-JSON two-field shape. -/
theorem response_shape_cex :
    encodeResponse (JSValue.num 5) "" = [("result", JSValue.num 5)] ∧
    encodeResponse JSValue.null (errMessage SMError.noWorkerAvailable) =
      [("error", JSValue.str "no worker available to process script")] ∧
    (handler smClosedW envW reqW).1.body =
      RespBody.text "Currently not accepting script, please wait..." := by
  exact ⟨rfl, rfl, rfl⟩

/-- Claim C6 (amended): every response on the execution path is exactly
one JSON body: on success the encoding of `Response` with the empty error
omitted (and the result omitted when the exported value is null), on
failure the encoding with the nil result omitted; requests rejected
before submission (non-POST, read failure, gate closed) receive a
plain-text body via `http.Error`. -/
theorem handler_response_shape (sm : SMState) (env : ExecEnv) (r : Request) :
    (∀ v, (handler sm env r).1.execResult = some (Except.ok v) →
      (handler sm env r).1.body = RespBody.jsonBody (encodeResponse v "") ∧
      (handler sm env r).1.status = 200) ∧
    (∀ e, (handler sm env r).1.execResult = some (Except.error e) →
      (handler sm env r).1.body = RespBody.jsonBody (encodeResponse JSValue.null (errMessage e)) ∧
      (handler sm env r).1.status = statusForError e) ∧
    ((handler sm env r).1.execResult = none → ∃ s, (handler sm env r).1.body = RespBody.text s) := by
  rcases handler_cases sm env r with ⟨hs, he, hb⟩ | ⟨v0, s2, hE, hh⟩ | ⟨e0, s2, hE, hh⟩
  · refine ⟨?_, ?_, fun _ => hb⟩
    · intro v h
      rw [he] at h
      cases h
    · intro e h
      rw [he] at h
      cases h
  · refine ⟨?_, ?_, ?_⟩
    · intro v h
      rw [hh] at h
      simp only [Option.some.injEq] at h
      injection h with h1
      subst h1
      rw [hh]
      exact ⟨rfl, rfl⟩
    · intro e h
      rw [hh] at h
      simp at h
    · intro h
      rw [hh] at h
      cases h
  · refine ⟨?_, ?_, ?_⟩
    · intro v h
      rw [hh] at h
      simp at h
    · intro e h
      rw [hh] at h
      simp only [Option.some.injEq] at h
      injection h with h1
      subst h1
      rw [hh]
      exact ⟨rfl, rfl⟩
    · intro h
      rw [hh] at h
      cases h

/-- Claim C6 amended-theorem witness: the concrete success response is the
single-field JSON body with status 200. -/
theorem handler_response_shape_w :
    (handler smW envW reqW).1.body = RespBody.jsonBody (encodeResponse (JSValue.num 5) "") ∧
    (handler smW envW reqW).1.status = 200 :=
  (handler_response_shape smW envW reqW).1 (JSValue.num 5) rfl

/-- Claim C7 counterexample: a call made while the queue is full does not
always return `ErrNoWorkerAvailable` — an oversized script hits the size
check first and returns `ErrScriptTooLarge`. -/
theorem full_queue_oversize_cex :
    smFullW.jobQueue.length = smFullW.jobQueueCap ∧
    (ExecuteScriptWithTimeout smFullW envW [49, 43, 49]).1 = Except.error SMError.scriptTooLarge ∧
    (ExecuteScriptWithTimeout smFullW envW [49, 43, 49]).1 ≠ Except.error SMError.noWorkerAvailable := by
  exact ⟨rfl, rfl, by decide⟩

/-- Claim C7 (amended): the job queue has capacity `worker_pool_size`, and
for every call to `ExecuteScriptWithTimeout` whose script passes the size
check, made while the queue is full, the call returns
`ErrNoWorkerAvailable` immediately without enqueueing and with the
manager state (queue included) unchanged. -/
theorem jobQueue_nonblocking_when_full (m wc : Nat) (sm : SMState) (env : ExecEnv)
    (js : List Nat)
    (hlen : js.length ≤ sm.maxScriptSize) (hfull : sm.jobQueue.length = sm.jobQueueCap) :
    (NewScriptManager m wc).jobQueueCap = wc ∧
    ExecuteScriptWithTimeout sm env js = (Except.error SMError.noWorkerAvailable, sm) := by
  refine ⟨rfl, ?_⟩
  unfold ExecuteScriptWithTimeout
  have h1 : ¬ sm.maxScriptSize < js.length := not_lt.mpr hlen
  have h2 : ¬ sm.jobQueue.length < sm.jobQueueCap := by omega
  simp [h1, h2]

/-- Claim C7 amended-theorem witness at a concrete full queue. -/
theorem jobQueue_nonblocking_when_full_w :
    (NewScriptManager 4 3).jobQueueCap = 3 ∧
    ExecuteScriptWithTimeout smFullW envW [49] =
      (Except.error SMError.noWorkerAvailable, smFullW) :=
  jobQueue_nonblocking_when_full 4 3 smFullW envW [49] (by decide) rfl

/-- Claim C8: `cancelAllScripts` interrupts every registered VM, fires
every present cancellation trigger, and removes every entry — the
registry is empty when it returns — and a later `unregister` of any id is
a harmless no-op on the emptied registry. -/
theorem cancelAllScripts_spec (reg : Registry) (id : String)
    (hcf : ∀ p ∈ reg, p.2.cancelFunc.isSome = true) :
    (cancelAllScripts reg).2 = [] ∧
    (∀ p ∈ reg,
      CancelEvent.interrupted p.2.vm "Script cancelled" ∈ (cancelAllScripts reg).1 ∧
      CancelEvent.cancelFired p.1 ∈ (cancelAllScripts reg).1) ∧
    unregister (cancelAllScripts reg).2 id = (cancelAllScripts reg).2 := by
  refine ⟨cancelAllScripts_snd reg, ?_, ?_⟩
  · intro p hp
    exact ⟨cancelAllScripts_mem_interrupted reg p hp,
           cancelAllScripts_mem_cancelFired reg p hp (hcf p hp)⟩
  · rw [cancelAllScripts_snd reg]
    rfl

/-- Claim C8 witness at a one-entry registry. -/
theorem cancelAllScripts_spec_w :
    (cancelAllScripts regW).2 = [] ∧
    (∀ p ∈ regW,
      CancelEvent.interrupted p.2.vm "Script cancelled" ∈ (cancelAllScripts regW).1 ∧
      CancelEvent.cancelFired p.1 ∈ (cancelAllScripts regW).1) ∧
    unregister (cancelAllScripts regW).2 "script-1" = (cancelAllScripts regW).2 :=
  cancelAllScripts_spec regW "script-1" (by decide)

/-- Claim C9: on an over-limit tick with the gate open, the watchdog
closes the gate and cancels every tracked script in that same tick; a
restart fires only on an over-limit tick whose recorded `over_since` is
set and more than 60 seconds old; an under-limit tick clears
`over_since`, and over-limit ticks preserve it once recorded. -/
theorem memoryMonitor_overage_and_escalation (cfg : Config) (sm : SMState)
    (ols : Int) (i : MonitorInput) :
    (limitBytes cfg.maxMemoryMB < i.allocBytes → sm.accepting = true →
      (memoryMonitorTick cfg sm ols i).sm.accepting = false ∧
      (memoryMonitorTick cfg sm ols i).cancelAllInvoked = true ∧
      (memoryMonitorTick cfg sm ols i).sm.runningScripts = [] ∧
      (∀ p ∈ sm.runningScripts,
        CancelEvent.interrupted p.2.vm "Script cancelled" ∈
          (memoryMonitorTick cfg sm ols i).cancelEvents)) ∧
    ((memoryMonitorTick cfg sm ols i).restarted = true →
      limitBytes cfg.maxMemoryMB < i.allocBytes ∧ ols ≠ 0 ∧ 60 < i.now - ols) ∧
    (¬ limitBytes cfg.maxMemoryMB < i.allocBytes →
      (memoryMonitorTick cfg sm ols i).overLimitStart = 0) ∧
    (limitBytes cfg.maxMemoryMB < i.allocBytes → ols ≠ 0 →
      (memoryMonitorTick cfg sm ols i).overLimitStart = ols) := by
  refine ⟨?_, ?_, ?_, ?_⟩
  · intro hov hacc
    refine ⟨?_, ?_, ?_, ?_⟩
    · simp [memoryMonitorTick, hov, hacc]
    · simp [memoryMonitorTick, hov, hacc]
    · simp [memoryMonitorTick, hov, hacc, cancelAllScripts_snd]
    · intro p hp
      have hmem := cancelAllScripts_mem_interrupted sm.runningScripts p hp
      simpa [memoryMonitorTick, hov, hacc] using hmem
  · intro hres
    by_cases hov : limitBytes cfg.maxMemoryMB < i.allocBytes
    · refine ⟨hov, ?_⟩
      by_cases hols : ols = 0
      · exfalso
        cases hacc : sm.accepting <;>
          simp [memoryMonitorTick, hov, hacc, enforceMemoryLimit, hols] at hres
      · refine ⟨hols, ?_⟩
        by_cases htime : 60 < i.now - ols
        · exact htime
        · exfalso
          cases hacc : sm.accepting <;>
            simp [memoryMonitorTick, hov, hacc, enforceMemoryLimit, hols, htime] at hres
    · exfalso
      by_cases hols : ols = 0 <;>
        simp [memoryMonitorTick, hov, hols] at hres
  · intro hov
    by_cases hols : ols = 0 <;>
      simp [memoryMonitorTick, hov, hols]
  · intro hov hols
    by_cases htime : 60 < i.now - ols <;>
      cases hacc : sm.accepting <;>
        simp [memoryMonitorTick, hov, hacc, enforceMemoryLimit, hols, htime]

/-- Claim C9 witness: a concrete first over-limit tick closes the gate and
cancels the tracked script, and a concrete sustained-overage tick meets
the escalation conditions. -/
theorem memoryMonitor_overage_and_escalation_w :
    ((memoryMonitorTick cfgW smOpenRegW 0 iOverW).sm.accepting = false ∧
     (memoryMonitorTick cfgW smOpenRegW 0 iOverW).cancelAllInvoked = true ∧
     (memoryMonitorTick cfgW smOpenRegW 0 iOverW).sm.runningScripts = [] ∧
     (∀ p ∈ smOpenRegW.runningScripts,
       CancelEvent.interrupted p.2.vm "Script cancelled" ∈
         (memoryMonitorTick cfgW smOpenRegW 0 iOverW).cancelEvents)) ∧
    (limitBytes cfgW.maxMemoryMB < iOverW.allocBytes ∧ (10 : Int) ≠ 0 ∧ 60 < iOverW.now - 10) :=
  ⟨(memoryMonitor_overage_and_escalation cfgW smOpenRegW 0 iOverW).1 (by decide) rfl,
   (memoryMonitor_overage_and_escalation cfgW smClosedW 10 iOverW).2.1 (by decide)⟩

/-- Claim C10: the admission gate moves from closed to open only on the
watchdog's recovery path — an under-limit heap sample observed after a
recorded overage — and then only after the 10-second settling delay of
`resetMemoryUsage`. -/
theorem gate_reopen_requires_recovery (cfg : Config) (sm : SMState) (ols : Int)
    (i : MonitorInput)
    (hclosed : sm.accepting = false)
    (hopen : (memoryMonitorTick cfg sm ols i).sm.accepting = true) :
    i.allocBytes ≤ limitBytes cfg.maxMemoryMB ∧ ols ≠ 0 ∧
    (memoryMonitorTick cfg sm ols i).reopenedAfterSeconds = some settleDelaySeconds ∧
    settleDelaySeconds = 10 := by
  by_cases hov : limitBytes cfg.maxMemoryMB < i.allocBytes
  · exfalso
    simp [memoryMonitorTick, hov, hclosed] at hopen
  · by_cases hols : ols = 0
    · exfalso
      simp [memoryMonitorTick, hov, hols, hclosed] at hopen
    · refine ⟨not_lt.mp hov, hols, ?_, rfl⟩
      simp [memoryMonitorTick, hov, hols]

/-- Claim C10 witness at a concrete recovery tick. -/
theorem gate_reopen_requires_recovery_w :
    iUnderW.allocBytes ≤ limitBytes cfgW.maxMemoryMB ∧ (5 : Int) ≠ 0 ∧
    (memoryMonitorTick cfgW smClosedW 5 iUnderW).reopenedAfterSeconds = some settleDelaySeconds ∧
    settleDelaySeconds = 10 :=
  gate_reopen_requires_recovery cfgW smClosedW 5 iUnderW rfl rfl

end IsolateJS
